import Mathlib

/-!
Shallow embedding of the dynamic schema / CRUD engine of `src/database.py`
(class `DatabaseManager`), together with proofs about its operations.

Modelling conventions:
* Python strings are modelled as `List Char` (sequences of Unicode scalar
  values); SQLite rows as explicit structures; the SQLite file as a `DB`
  state value that every operation threads explicitly.
* SQL statements built by the Python code are modelled by a small condition
  AST (`Cond`) that mirrors exactly the WHERE fragments the source
  interpolates, and by explicit state transformers for INSERT / UPDATE /
  DELETE / DDL.
* Timestamps (`CURRENT_TIMESTAMP`, `datetime.now().isoformat()`) are
  abstracted to an integer clock value passed explicitly to the operations
  that stamp rows.
* Python exceptions and sqlite3 errors are modelled with `Except Err`;
  `Err` also carries the error names of the specification taxonomy
  (`invalidIdentifier`, `unknownTable`) so that their absence in the code
  can be stated; the source never produces them.
* SQLite value affinity conversions on storage are abstracted away: values
  are stored exactly as supplied (the round-trip property of the
  specification is stated "modulo declared scalar-kind representation").
-/

/-- A Python string / SQL text value, as a list of Unicode scalar values. -/
abbrev Str := List Char

/-- Identifiers (table and column names) are strings. -/
abbrev Ident := String

/-- A SQLite storage value: NULL, an integer, or a text value.
    (REAL values do not occur in any scenario of this development and the
    engine applies no implicit coercion, so they are omitted.) -/
inductive Value where
  | null : Value
  | int : Int → Value
  | text : Str → Value
deriving DecidableEq, Repr

/-- Error outcomes. The first three model what the Python source can
    actually raise (sqlite3.IntegrityError, sqlite3.OperationalError and a
    Python AttributeError); the last two are the validation errors named by
    the specification error taxonomy, carried here only so that theorems
    can state that the source never produces them. -/
inductive Err where
  | integrityError : Err
  | operationalError : Err
  | attributeError : Err
  | invalidIdentifier : Err
  | unknownTable : Err
deriving DecidableEq, Repr

/-! ## Text normalization (`DatabaseManager.connect`, lines 27-49)

The source registers a custom SQL function NORMALIZE_SEARCH built from
`unicodedata.normalize("NFD", text)`, removal of combining marks
(category Mn) and `str.lower()`. -/

/-- Fragment of the Unicode NFD decomposition table sufficient for every
    character this development evaluates; characters outside the fragment
    decompose to themselves. Models `unicodedata.normalize("NFD", -)`
    applied characterwise. -/
def nfdChar (c : Char) : List Char :=
  if c = 'é' then ['e', '\u0301']
  else if c = 'É' then ['E', '\u0301']
  else if c = 'á' then ['a', '\u0301']
  else if c = 'Á' then ['A', '\u0301']
  else [c]

/-- Combining diacritical mark test: models `unicodedata.category(c) = Mn`
    on the combining-diacritical-marks block, which covers every mark that
    the decomposition fragment above can produce. -/
def isCombiningMark (c : Char) : Bool :=
  0x300 ≤ c.toNat && c.toNat ≤ 0x36F

/-- Core of `normalize_search`: NFD-decompose, drop combining marks, then
    lower-case. `Char.toLower` is ASCII lowering, which agrees with Python
    `str.lower` on every character this development evaluates (after accent
    removal they are all ASCII). -/
def normCore (s : Str) : Str :=
  ((s.flatMap nfdChar).filter (fun c => !(isCombiningMark c))).map Char.toLower

/-- `normalize_search(text)` from `DatabaseManager.connect`: the source
    guards with `if not text: return text`, then removes accents and
    lower-cases. (The guard is the identity on the empty string; the None
    case is handled at predicate evaluation, where a NULL column never
    matches a LIKE.) -/
def normalizeSearch (s : Str) : Str :=
  if s.isEmpty then s else normCore s

/-! ## SQL LIKE matching

The interpolated predicates have the shape
`NORMALIZE_SEARCH(col) LIKE NORMALIZE_SEARCH(?)` with parameter
`"%" + term + "%"`. SQLite LIKE matches the whole string, with `%`
matching any sequence and `_` any single character; its ASCII case
folding is the identity on operands already lower-cased by
NORMALIZE_SEARCH, so plain character equality is used here. -/

/-- Does `f` hold of some suffix of the list (the list itself and the empty
    suffix included)? -/
def anySuffix (f : Str → Bool) : Str → Bool
  | [] => f []
  | b :: t => f (b :: t) || anySuffix f t

/-- SQLite LIKE pattern matching (pattern, then text): `%` matches any
    sequence, `_` any single character. -/
def likeMatch : Str → Str → Bool
  | [], t => t.isEmpty
  | c :: p, t =>
    if c = '%' then anySuffix (likeMatch p) t
    else
      match t with
      | [] => false
      | d :: t2 => if c = '_' then likeMatch p t2 else (c = d) && likeMatch p t2

/-- `s` starts with `q` (needle first). -/
def startsWithStr : Str → Str → Bool
  | [], _ => true
  | _ :: _, [] => false
  | a :: q, b :: t => (a = b) && startsWithStr q t

/-- `s` contains `q` as a contiguous substring (needle first). -/
def containsStr (q : Str) : Str → Bool
  | [] => q.isEmpty
  | b :: t => startsWithStr q (b :: t) || containsStr q t

/-! ## Data model: the meta-schema catalog and the backing storage

`_tables` and `_fields` rows (`DatabaseManager.initialize_schema`), the
dynamically created storage tables, and the whole database state. -/

/-- A row of the `_tables` catalog. -/
structure TableMeta where
  id : Int
  name : Ident
  display_name : Str
deriving DecidableEq, Repr

/-- A row of the `_fields` catalog (including the migrated
    `cascade_delete` column). -/
structure FieldMeta where
  id : Int
  table_id : Int
  name : Ident
  display_name : Str
  field_type : Ident
  is_required : Bool
  is_unique : Bool
  show_in_list : Bool
  options : Option Str
  reference_table_id : Option Int
  reference_display_field : Option Ident
  position : Int
  cascade_delete : Bool
deriving DecidableEq, Repr

/-- The keyword arguments of `DatabaseManager.add_field` other than the
    table id. -/
structure FieldSpec where
  name : Ident
  display_name : Str
  field_type : Ident
  is_required : Bool
  is_unique : Bool
  show_in_list : Bool
  options : Option Str
  reference_table_id : Option Int
  reference_display_field : Option Ident
  position : Int
  cascade_delete : Bool
deriving DecidableEq, Repr

/-- A row of a dynamic storage table: the three provisioned columns plus
    one value per added column. `created_at` and `updated_at` are `Value`
    so that both storage defaults and explicit UPDATE assignments can be
    represented. -/
structure Row where
  id : Int
  created_at : Value
  updated_at : Value
  cols : List (Ident × Value)
deriving DecidableEq, Repr

/-- One dynamic storage table: the columns added after provisioning (name
    and the SQL type chosen by `_get_sql_type`; the rows of a well-shaped
    table carry exactly these column names, in order), its rows in rowid
    order, and the AUTOINCREMENT counter (strictly above every id ever
    assigned). -/
structure StorageTable where
  columns : List (Ident × Ident)
  rows : List Row
  nextId : Int
deriving DecidableEq, Repr

/-- The whole SQLite database: both catalogs (in insertion order, with
    their AUTOINCREMENT counters) and the named storage tables. -/
structure DB where
  tables : List TableMeta
  fields : List FieldMeta
  storage : List (Ident × StorageTable)
  nextTableId : Int
  nextFieldId : Int
deriving DecidableEq, Repr

/-- The freshly initialized database (`initialize_schema`): empty catalogs,
    no storage tables, AUTOINCREMENT counters at 1. -/
def emptyDB : DB := ⟨[], [], [], 1, 1⟩

/-- Dict-style lookup of a row column, as `dict(row)` exposes it: the three
    base columns first, then the added columns. (A query naming a column
    that is not declared errors in SQLite; such queries do not occur in
    this development, and the lookup totalizes them to NULL.) -/
def rowLookup (r : Row) (c : Ident) : Value :=
  if c = "id" then .int r.id
  else if c = "created_at" then r.created_at
  else if c = "updated_at" then r.updated_at
  else (r.cols.lookup c).getD .null

/-- Python truthiness of a value (used by `1 if filter_config['value']
    else 0` and similar guards). -/
def pyTruthy : Value → Bool
  | .null => false
  | .int n => n ≠ 0
  | .text s => !s.isEmpty

/-- Python f-string rendering of a value, as in `f"%{value}%"`. -/
def valueToStr : Value → Str
  | .text s => s
  | .int n => (toString n).toList
  | .null => "None".toList

/-- Lexicographic strict order on text. -/
def strLt : Str → Str → Bool
  | [], [] => false
  | [], _ :: _ => true
  | _ :: _, [] => false
  | a :: s, b :: t => a < b || (a = b && strLt s t)

/-- Total SQLite ordering on stored values (used by ORDER BY):
    NULL sorts before numbers, numbers before text. -/
def valueLeB : Value → Value → Bool
  | .null, _ => true
  | .int _, .null => false
  | .int a, .int b => a ≤ b
  | .int _, .text _ => true
  | .text _, .null => false
  | .text _, .int _ => false
  | .text a, .text b => !(strLt b a)

/-- SQL comparison `x >= v` (WHERE semantics: NULL on either side never
    matches; numbers sort below text). -/
def valueGeSql : Value → Value → Bool
  | .null, _ => false
  | _, .null => false
  | .int a, .int b => b ≤ a
  | .text a, .text b => !(strLt a b)
  | .int _, .text _ => false
  | .text _, .int _ => true

/-- SQL comparison `x <= v`. -/
def valueLeSql : Value → Value → Bool
  | .null, _ => false
  | _, .null => false
  | .int a, .int b => a ≤ b
  | .text a, .text b => !(strLt b a)
  | .int _, .text _ => true
  | .text _, .int _ => false

/-- SQL equality `x = v` (NULL never equal; no affinity crossing occurs at
    the `=` comparisons the source builds). -/
def valueEqSql : Value → Value → Bool
  | .int a, .int b => a = b
  | .text a, .text b => a = b
  | _, _ => false

/-- Comparison of a stored value with an IN-list member. The source binds
    `str(r['id'])` text parameters against the INTEGER-affinity reference
    column, and SQLite converts such a text parameter to its numeric value
    before comparing; the texts are canonical decimal renderings, so the
    conversion is rendering equality. -/
def valueAffEq : Value → Value → Bool
  | .int n, .text s => s = (toString n).toList
  | a, b => valueEqSql a b

/-- Which names the SQLite tokenizer accepts as an unquoted identifier in
    the interpolated DDL: the first character an ASCII letter, an
    underscore, or any codepoint above 127; every further character
    additionally an ASCII digit or a dollar sign. (Reserved words, which
    SQLite also rejects in this position, do not occur among the names
    this development evaluates.) So names such as a$b or café are accepted
    even though they fail the conservative pattern above. -/
def sqlIdentAccepted (s : Ident) : Bool :=
  match s.toList with
  | [] => false
  | c :: cs =>
    (c.isAlpha || c = '_' || 127 < c.toNat) &&
      cs.all (fun d => d.isAlpha || d.isDigit || d = '_' || d = '$' || 127 < d.toNat)

/-- `DatabaseManager._get_sql_type`: map a field type to a SQL column
    type, defaulting to TEXT. -/
def getSqlType (field_type : Ident) : Ident :=
  if field_type = "text" then "TEXT"
  else if field_type = "number" then "REAL"
  else if field_type = "date" then "TEXT"
  else if field_type = "boolean" then "BOOLEAN"
  else if field_type = "email" then "TEXT"
  else if field_type = "url" then "TEXT"
  else if field_type = "phone" then "TEXT"
  else if field_type = "richtext" then "TEXT"
  else if field_type = "dropdown" then "TEXT"
  else if field_type = "multiselect" then "TEXT"
  else if field_type = "image" then "TEXT"
  else if field_type = "file" then "TEXT"
  else if field_type = "reference" then "INTEGER"
  else if field_type = "multireference" then "TEXT"
  else "TEXT"

/-! ## WHERE clauses

The WHERE fragments the source interpolates, as an AST, and their SQLite
evaluation against one row. -/

/-- The condition fragments the source builds: `col = ?`, `col >= ?`,
    `col <= ?`, `NORMALIZE_SEARCH(col) LIKE NORMALIZE_SEARCH(?)`,
    `col IN (?, ..)`, the deliberately unsatisfiable `1 = 0`, and the
    joins with OR / AND. -/
inductive Cond where
  | eqC : Ident → Value → Cond
  | geC : Ident → Value → Cond
  | leC : Ident → Value → Cond
  | likeNormC : Ident → Str → Cond
  | inC : Ident → List Value → Cond
  | falseC : Cond
  | orC : Cond → Cond → Cond
  | andC : Cond → Cond → Cond
deriving DecidableEq, Repr

/-- Evaluate a condition on one row. A NULL (or non-text) operand of the
    normalized LIKE never matches: NORMALIZE_SEARCH passes NULL through
    and LIKE on NULL is not true. -/
def evalCond (r : Row) : Cond → Bool
  | .eqC c v => valueEqSql (rowLookup r c) v
  | .geC c v => valueGeSql (rowLookup r c) v
  | .leC c v => valueLeSql (rowLookup r c) v
  | .likeNormC c pat =>
    match rowLookup r c with
    | .text s => likeMatch (normalizeSearch pat) (normalizeSearch s)
    | _ => false
  | .inC c vs => vs.any (fun v => valueAffEq (rowLookup r c) v)
  | .falseC => false
  | .orC a b => evalCond r a || evalCond r b
  | .andC a b => evalCond r a && evalCond r b

/-- `' OR '.join` of a nonempty list of fragments (left fold, as the
    textual join associates). -/
def foldOrC : List Cond → Option Cond
  | [] => none
  | c :: cs => some (cs.foldl .orC c)

/-- `' AND '.join` of the collected fragments; an empty collection means
    no WHERE clause. -/
def foldAndC : List Cond → Option Cond
  | [] => none
  | c :: cs => some (cs.foldl .andC c)

/-! ## Generic insertion sort (for ORDER BY and the `_fields` ordering) -/

/-- Insert into a sorted list (stable: goes after equal keys). -/
def insertLe (le : α → α → Bool) (a : α) : List α → List α
  | [] => [a]
  | b :: l => if le a b then a :: b :: l else b :: insertLe le a l

/-- Insertion sort by a boolean comparison. -/
def sortLe (le : α → α → Bool) : List α → List α
  | [] => []
  | a :: l => insertLe le a (sortLe le l)

/-- ORDER BY comparison between two rows on one column, with direction. -/
def rowKeyLe (col : Ident) (dir : Ident) (a b : Row) : Bool :=
  if dir = "DESC" then valueLeB (rowLookup b col) (rowLookup a col)
  else valueLeB (rowLookup a col) (rowLookup b col)

/-- The LIMIT/OFFSET tail of `get_records`: the source emits
    `LIMIT {limit} OFFSET {offset}` only under `if limit:`, so a `None` or
    `0` limit emits no clause at all. SQLite treats a negative OFFSET as 0
    and a negative LIMIT as unbounded. -/
def applyLimit (limit : Option Int) (offset : Int) (rows : List Row) : List Row :=
  match limit with
  | none => rows
  | some l =>
    if l = 0 then rows
    else if l < 0 then rows.drop offset.toNat
    else (rows.drop offset.toNat).take l.toNat

/-! ## State helpers -/

/-- Look up a storage table by name. -/
def lookupStorage (db : DB) (table : Ident) : Option StorageTable :=
  db.storage.lookup table

/-- Replace the storage table of the given name. -/
def setStorage (db : DB) (table : Ident) (st : StorageTable) : DB :=
  { db with storage := db.storage.map (fun p => if p.1 = table then (p.1, st) else p) }

/-! ## Catalog reads -/

/-- `DatabaseManager.get_table`: `SELECT * FROM _tables WHERE id = ?`,
    first match or None. -/
def get_table (db : DB) (table_id : Int) : Option TableMeta :=
  db.tables.find? (fun t => t.id = table_id)

/-- `DatabaseManager.get_all_tables`: `SELECT * FROM _tables ORDER BY
    name`. -/
def get_all_tables (db : DB) : List TableMeta :=
  sortLe (fun a b => !(strLt b.name.toList a.name.toList)) db.tables

/-- `DatabaseManager.get_fields`: the `_fields` rows of one table,
    `ORDER BY position, id`. -/
def get_fields (db : DB) (table_id : Int) : List FieldMeta :=
  sortLe (fun a b => a.position < b.position || (a.position = b.position && a.id ≤ b.id))
    (db.fields.filter (fun f => f.table_id = table_id))

/-! ## Schema mutation (`create_table`, `add_field`)

A raised sqlite3 error aborts the Python call before `commit()`; the
`Except.error` results below carry no state, modelling the uncommitted
connection. -/

/-- `DatabaseManager.create_table`: insert the catalog row (the UNIQUE
    constraint on `_tables.name` raises IntegrityError on a duplicate),
    then interpolate the raw name into `CREATE TABLE {name} (...)`. No
    identifier validation happens anywhere: a name SQLite cannot parse as
    an unquoted identifier (`sqlIdentAccepted`), or a clash with an
    existing storage table, surfaces as an OperationalError from the DDL
    itself — while any name SQLite does accept goes through, validated or
    not. -/
def create_table (db : DB) (name : Ident) (display_name : Str) : Except Err (DB × Int) :=
  if db.tables.any (fun t => t.name = name) then .error .integrityError
  else if !(sqlIdentAccepted name) then .error .operationalError
  else if (lookupStorage db name).isSome then .error .operationalError
  else
    .ok ({ db with
            tables := db.tables ++ [⟨db.nextTableId, name, display_name⟩],
            storage := db.storage ++ [(name, ⟨[], [], 1⟩)],
            nextTableId := db.nextTableId + 1 },
         db.nextTableId)

/-- The column names `PRAGMA table_info` reports for a storage table: the
    three provisioned columns then the added ones (empty when the storage
    table is missing, as the PRAGMA returns no rows then). -/
def existingColumns (db : DB) (table : Ident) : List Ident :=
  match lookupStorage db table with
  | none => []
  | some st => "id" :: "created_at" :: "updated_at" :: st.columns.map Prod.fst

/-- `DatabaseManager.add_field`. If the table id is not in the catalog the
    method silently returns (`if not table: return`) without touching any
    state. Otherwise it inserts the `_fields` row (UNIQUE(table_id, name)
    raises IntegrityError on a collision), and only when the column is not
    already present interpolates the raw field name into
    `ALTER TABLE .. ADD COLUMN {name} {sql_type}` — again with no
    identifier validation, so a name outside `sqlIdentAccepted` (or a
    missing storage table) is an OperationalError from the DDL. New
    columns hold NULL in existing rows. -/
def add_field (db : DB) (table_id : Int) (spec : FieldSpec) : Except Err DB :=
  match get_table db table_id with
  | none => .ok db
  | some t =>
    if db.fields.any (fun f => f.table_id = table_id && f.name = spec.name) then
      .error .integrityError
    else
      let db1 := { db with
        fields := db.fields ++ [⟨db.nextFieldId, table_id, spec.name, spec.display_name,
          spec.field_type, spec.is_required, spec.is_unique, spec.show_in_list, spec.options,
          spec.reference_table_id, spec.reference_display_field, spec.position,
          spec.cascade_delete⟩],
        nextFieldId := db.nextFieldId + 1 }
      if spec.name ∈ existingColumns db t.name then .ok db1
      else
        match lookupStorage db t.name with
        | none => .error .operationalError
        | some st =>
          if !(sqlIdentAccepted spec.name) then .error .operationalError
          else
            .ok (setStorage db1 t.name
              { st with
                columns := st.columns ++ [(spec.name, getSqlType spec.field_type)],
                rows := st.rows.map (fun r => { r with cols := r.cols ++ [(spec.name, .null)] }) })

/-! ## Record CRUD (`insert_record`, `update_record`, `delete_record`,
`get_records`, `get_record`, `search_records`, `filter_records`) -/

/-- The key filter of `insert_record`: drop caller-supplied `id`,
    `created_at`, `updated_at`. -/
def stripInsert (data : List (Ident × Value)) : List (Ident × Value) :=
  data.filter (fun kv => !(kv.1 = "id" || kv.1 = "created_at" || kv.1 = "updated_at"))

/-- `DatabaseManager.insert_record`: strip the reserved keys; an empty dict
    becomes `INSERT INTO t DEFAULT VALUES`, otherwise the supplied pairs
    are inserted (a key that is no declared column is an OperationalError
    from SQLite). The new row takes the AUTOINCREMENT id, both timestamps
    default to the current instant, and every unsupplied column holds
    NULL. Returns the new id (`cursor.lastrowid`). The row produced by one
    INSERT: AUTOINCREMENT id, both timestamps defaulting to the current
    instant, the supplied value (or NULL) for each declared column. -/
def insertedRow (st : StorageTable) (d : List (Ident × Value)) (now : Int) : Row :=
  ⟨st.nextId, .int now, .int now,
    st.columns.map (fun c => (c.1, (d.lookup c.1).getD .null))⟩

/-- `DatabaseManager.insert_record`, continued: the state transformer. -/
def insert_record (db : DB) (table : Ident) (data : List (Ident × Value)) (now : Int) :
    Except Err (DB × Int) :=
  match lookupStorage db table with
  | none => .error .operationalError
  | some st =>
    if (stripInsert data).all (fun kv => st.columns.any (fun c => c.1 = kv.1)) then
      .ok (setStorage db table
            { st with rows := st.rows ++ [insertedRow st (stripInsert data) now],
                      nextId := st.nextId + 1 },
           st.nextId)
    else .error .operationalError

/-- The key filter of `update_record`: drop caller-supplied `id` and
    `created_at` (but not `updated_at`, which the next line overwrites). -/
def stripUpdate (data : List (Ident × Value)) : List (Ident × Value) :=
  data.filter (fun kv => !(kv.1 = "id" || kv.1 = "created_at"))

/-- Python dict assignment `d[k] = v`: replace in place, else append. -/
def setKey : List (Ident × Value) → Ident → Value → List (Ident × Value)
  | [], k, v => [(k, v)]
  | kv :: l, k, v => if kv.1 = k then (k, v) :: l else kv :: setKey l k v

/-- One `SET k = v` assignment applied to a row. -/
def applyAssign (r : Row) (kv : Ident × Value) : Row :=
  if kv.1 = "updated_at" then { r with updated_at := kv.2 }
  else if kv.1 = "created_at" then { r with created_at := kv.2 }
  else { r with cols := r.cols.map (fun c => if c.1 = kv.1 then (kv.1, kv.2) else c) }

/-- The SET-clause assignment list of `update_record`: the stripped data
    with `updated_at` overwritten by the current instant
    (`data['updated_at'] = datetime.now().isoformat()`). -/
def updAssignments (data : List (Ident × Value)) (now : Int) : List (Ident × Value) :=
  setKey (stripUpdate data) "updated_at" (.int now)

/-- The effect of the UPDATE statement of `update_record` on one matching
    row: apply every SET assignment in order. -/
def updRowFn (data : List (Ident × Value)) (now : Int) (r : Row) : Row :=
  (updAssignments data now).foldl applyAssign r

/-- `DatabaseManager.update_record`: strip `id`/`created_at`, overwrite
    `updated_at` with the current instant, then run
    `UPDATE t SET .. WHERE id = ?` (zero affected rows is silent; a key
    that is no column is an OperationalError). -/
def update_record (db : DB) (table : Ident) (record_id : Int)
    (data : List (Ident × Value)) (now : Int) : Except Err DB :=
  match lookupStorage db table with
  | none => .error .operationalError
  | some st =>
    if (updAssignments data now).all
        (fun kv => kv.1 = "updated_at" || st.columns.any (fun c => c.1 = kv.1)) then
      .ok (setStorage db table
        { st with rows := st.rows.map (fun r => if r.id = record_id then updRowFn data now r else r) })
    else .error .operationalError

/-- `DatabaseManager.delete_record`. When the table name has no `_tables`
    row the method silently returns. Otherwise line 269 evaluates
    `self.get_tables()` — `DatabaseManager` defines no attribute of that
    name (the catalog accessor is `get_all_tables`), so Python raises
    AttributeError there, before any cascade scan, any `DELETE` statement
    and any `commit()`: no row is ever deleted. -/
def delete_record (db : DB) (table : Ident) (_record_id : Int) : Except Err DB :=
  match db.tables.find? (fun t => t.name = table) with
  | none => .ok db
  | some _ => .error .attributeError

/-- `DatabaseManager.get_records`: `SELECT * FROM t` with optional WHERE,
    `ORDER BY {order_by} {order_dir}`, and LIMIT/OFFSET only under
    `if limit:`. A missing storage table (an OperationalError in SQLite)
    is totalized to the empty list; no claim evaluates that case. -/
def get_records (db : DB) (table : Ident) (limit : Option Int) (offset : Int)
    (order_by : Ident) (order_dir : Ident) (whereC : Option Cond) : List Row :=
  match lookupStorage db table with
  | none => []
  | some st =>
    let kept := match whereC with
      | none => st.rows
      | some c => st.rows.filter (fun r => evalCond r c)
    applyLimit limit offset (sortLe (rowKeyLe order_by order_dir) kept)

/-- `DatabaseManager.get_record`: `SELECT * FROM t WHERE id = ?`,
    `fetchone`. -/
def get_record (db : DB) (table : Ident) (record_id : Int) : Option Row :=
  (lookupStorage db table).bind (fun st => st.rows.find? (fun r => r.id = record_id))

/-- `DatabaseManager.search_records`: empty field list or empty term
    returns the plain listing; otherwise one normalized LIKE per field,
    joined with OR, each bound to the parameter `"%" + term + "%"`. -/
def search_records (db : DB) (table : Ident) (fields : List Ident) (term : Str) : List Row :=
  if fields.isEmpty || term.isEmpty then
    get_records db table none 0 "id" "ASC" none
  else
    get_records db table none 0 "id" "ASC"
      (foldOrC (fields.map (fun f => .likeNormC f ('%' :: term ++ ['%']))))

/-! ## Advanced filtering (`filter_records`) -/

/-- One entry of the filter dict handed to `filter_records` (shape as
    built by the filter dialog): the discriminating `type` plus the keys
    the recognized branches read. `fromVal`/`toVal` model the Python keys
    `from`/`to`. A key the corresponding branch never reads is simply
    ignored, as in Python. -/
structure FilterConfig where
  type : Ident
  value : Value
  min : Option Value
  max : Option Value
  fromVal : Option Value
  toVal : Option Value
  field : Option FieldMeta
deriving DecidableEq, Repr

/-- The text-like field types a reference filter searches in the
    referenced table. -/
def textLikeTypes : List Ident := ["text", "email", "url", "phone", "richtext"]

/-- The names of the searchable (text-like) fields of a referenced
    table. -/
def searchableRefFields (db : DB) (ref_table_id : Int) : List Ident :=
  ((get_fields db ref_table_id).filter (fun f => f.field_type ∈ textLikeTypes)).map (fun f => f.name)

/-- The referenced-table rows a reference filter term matches: one
    normalized LIKE per searchable field, OR-joined, evaluated through
    `get_records` exactly as the source does. -/
def refMatching (db : DB) (ref_table_name : Ident) (fieldNames : List Ident) (v : Value) :
    List Row :=
  get_records db ref_table_name none 0 "id" "ASC"
    (foldOrC (fieldNames.map (fun f => .likeNormC f ('%' :: valueToStr v ++ ['%']))))

/-- The WHERE fragments one filter entry contributes (in source order).
    The recognized types are text, number_range, date_range, boolean,
    dropdown and reference; any other type falls through the if/elif chain
    and contributes nothing. The reference branch requires the field
    metadata with a truthy `reference_table_id` naming an existing table
    with at least one text-like field; a term matching no referenced row
    contributes the unsatisfiable `1 = 0`. -/
def condParts (db : DB) (field_name : Ident) (cfg : FilterConfig) : List Cond :=
  if cfg.type = "text" then
    [.likeNormC field_name ('%' :: valueToStr cfg.value ++ ['%'])]
  else if cfg.type = "number_range" then
    (match cfg.min with | some v => [Cond.geC field_name v] | none => []) ++
    (match cfg.max with | some v => [Cond.leC field_name v] | none => [])
  else if cfg.type = "date_range" then
    (match cfg.fromVal with | some v => [Cond.geC field_name v] | none => []) ++
    (match cfg.toVal with | some v => [Cond.leC field_name v] | none => [])
  else if cfg.type = "boolean" then
    [.eqC field_name (.int (if pyTruthy cfg.value then 1 else 0))]
  else if cfg.type = "dropdown" then
    [.eqC field_name cfg.value]
  else if cfg.type = "reference" then
    match cfg.field with
    | none => []
    | some fm =>
      match fm.reference_table_id with
      | none => []
      | some rtid =>
        if rtid = 0 then [] -- Python truthiness: a 0 id fails the guard
        else
          match get_table db rtid with
          | none => []
          | some rt =>
            let searchable := searchableRefFields db rtid
            if searchable.isEmpty then []
            else
              let matching := refMatching db rt.name searchable cfg.value
              if matching.isEmpty then [.falseC]
              else [.inC field_name (matching.map (fun r => .text (toString r.id).toList))]
  else []

/-- `DatabaseManager.filter_records`: an empty filter dict returns the
    plain listing; otherwise the fragments of every entry are collected in
    order and AND-joined (an entirely empty collection means no WHERE
    clause). -/
def filter_records (db : DB) (table : Ident) (filters : List (Ident × FilterConfig)) :
    List Row :=
  if filters.isEmpty then get_records db table none 0 "id" "ASC" none
  else
    get_records db table none 0 "id" "ASC"
      (foldAndC (filters.flatMap (fun fc => condParts db fc.1 fc.2)))

/-- The six filter types the if/elif chain of `filter_records`
    recognizes. -/
def recognizedType (t : Ident) : Bool :=
  ["text", "number_range", "date_range", "boolean", "dropdown", "reference"].contains t

/-! ## Concrete scenario states

These are the explicit inputs the claim theorems, witnesses and
counterexamples evaluate the operations on. -/

/-- A plain text field specification named `n`. -/
def textFieldSpec (n : Ident) : FieldSpec :=
  ⟨n, n.toList, "text", false, false, true, none, none, none, 0, false⟩

/-- The cascade scenario of the specification, built through the actual
    operations: tables Author and Book, Book.author a reference to Author
    with cascade_delete enabled, Author #1 "Asimov" and Book #1
    {title: "Foundation", author: 1} inserted. -/
def cascadeBuild : Except Err DB := do
  let (db1, aid) ← create_table emptyDB "authors" "Author".toList
  let db2 ← add_field db1 aid (textFieldSpec "name")
  let (db3, bid) ← create_table db2 "books" "Book".toList
  let db4 ← add_field db3 bid (textFieldSpec "title")
  let db5 ← add_field db4 bid
    ⟨"author", "Author".toList, "reference", false, false, true, none, some aid, some "name", 1, true⟩
  let (db6, _) ← insert_record db5 "authors" [("name", .text "Asimov".toList)] 10
  let (db7, _) ← insert_record db6 "books"
    [("title", .text "Foundation".toList), ("author", .int 1)] 11
  pure db7

/-- The state after the cascade scenario setup. -/
def cascadeDB : DB := cascadeBuild.toOption.getD emptyDB

/-- A database whose metadata catalog is empty while a storage table named
    ghost holding record #1 exists (as left behind, e.g., by hand-editing
    the file): the input separating catalog-driven deletion from storage
    contents. -/
def ghostDB : DB :=
  ⟨[], [], [("ghost", ⟨[], [⟨1, .int 0, .int 0, []⟩], 2⟩)], 1, 1⟩

/-- The search scenario: table person(name) with rows Café, cafe, CAFÉ. -/
def personRows : List Row :=
  [⟨1, .int 0, .int 0, [("name", .text "Café".toList)]⟩,
   ⟨2, .int 0, .int 0, [("name", .text "cafe".toList)]⟩,
   ⟨3, .int 0, .int 0, [("name", .text "CAFÉ".toList)]⟩]

/-- The search scenario database. -/
def personDB : DB :=
  ⟨[⟨1, "person", "Person".toList⟩],
   [⟨1, 1, "name", "Name".toList, "text", false, false, true, none, none, none, 0, false⟩],
   [("person", ⟨[("name", "TEXT")], personRows, 4⟩)], 2, 2⟩

/-- The `_fields` row of the reference field books.author pointing at the
    authors table (id 1), used by the reference-filter scenarios. -/
def authorRefField : FieldMeta :=
  ⟨2, 2, "author", "Author".toList, "reference", false, false, true, none, some 1, some "name", 1, false⟩

/-- Reference-filter counterexample state: the referenced table authors
    exists but has no fields at all (hence no text-like field and no
    rows), while books holds one record. -/
def noTextRefDB : DB :=
  ⟨[⟨1, "authors", "Author".toList⟩, ⟨2, "books", "Book".toList⟩],
   [authorRefField],
   [("authors", ⟨[], [], 1⟩),
    ("books", ⟨[("author", "INTEGER")], [⟨1, .int 0, .int 0, [("author", .int 7)]⟩], 2⟩)],
   3, 3⟩

/-- Reference-filter witness state: authors has a text-like field name but
    no rows, so any term matches zero referenced rows; books holds one
    record. -/
def emptyRefDB : DB :=
  ⟨[⟨1, "authors", "Author".toList⟩, ⟨2, "books", "Book".toList⟩],
   [⟨1, 1, "name", "Name".toList, "text", false, false, true, none, none, none, 0, false⟩,
    authorRefField],
   [("authors", ⟨[("name", "TEXT")], [], 1⟩),
    ("books", ⟨[("author", "INTEGER")], [⟨1, .int 0, .int 0, [("author", .int 7)]⟩], 2⟩)],
   3, 3⟩

/-- A reference filter entry searching for a term. -/
def refFilterCfg (term : Str) : FilterConfig :=
  ⟨"reference", .text term, none, none, none, none, some authorRefField⟩

/-- A one-table, two-row state for the listing and update witnesses. -/
def twoRowDB : DB :=
  ⟨[⟨1, "t", "T".toList⟩],
   [⟨1, 1, "a", "A".toList, "text", false, false, true, none, none, none, 0, false⟩,
    ⟨2, 1, "b", "B".toList, "text", false, false, true, none, none, none, 1, false⟩],
   [("t", ⟨[("a", "TEXT"), ("b", "TEXT")],
      [⟨1, .int 1, .int 1, [("a", .text "x".toList), ("b", .text "y".toList)]⟩,
       ⟨2, .int 2, .int 2, [("a", .text "u".toList), ("b", .text "v".toList)]⟩], 3⟩)],
   2, 3⟩

/-- An unrecognized-type filter entry. -/
def bogusFilterCfg : FilterConfig :=
  ⟨"bogus", .text "x".toList, none, none, none, none, none⟩

/-- Decidable equality of operation outcomes, so that witnesses and
    counterexamples can be settled by evaluation. -/
instance exceptDecEq {e a : Type} [DecidableEq e] [DecidableEq a] : DecidableEq (Except e a)
  | .error x, .error y =>
    if h : x = y then .isTrue (by rw [h]) else .isFalse (by intro hc; cases hc; exact h rfl)
  | .error _, .ok _ => .isFalse (by intro hc; cases hc)
  | .ok _, .error _ => .isFalse (by intro hc; cases hc)
  | .ok x, .ok y =>
    if h : x = y then .isTrue (by rw [h]) else .isFalse (by intro hc; cases hc; exact h rfl)

/-! ## Helper lemmas -/

/-- An AND-join evaluates false whenever one collected fragment does. -/
theorem foldl_andC_false (r : Row) :
    ∀ (cs : List Cond) (c : Cond), (evalCond r c = false ∨ ∃ d ∈ cs, evalCond r d = false) →
      evalCond r (cs.foldl .andC c) = false := by
  intro cs
  induction cs with
  | nil =>
    intro c h
    rcases h with h | ⟨d, hd, _⟩
    · exact h
    · cases hd
  | cons e cs ih =>
    intro c h
    show evalCond r (List.foldl .andC (.andC c e) cs) = false
    apply ih
    rcases h with h | ⟨d, hd, hdf⟩
    · left; simp [evalCond, h]
    · rcases List.mem_cons.mp hd with rfl | hd2
      · left; simp [evalCond, hdf]
      · right; exact ⟨d, hd2, hdf⟩

/-- An OR-join evaluates like disjunction over the collected fragments. -/
theorem foldl_orC_eval (r : Row) :
    ∀ (cs : List Cond) (c : Cond),
      evalCond r (cs.foldl .orC c) = (evalCond r c || cs.any (fun d => evalCond r d)) := by
  intro cs
  induction cs with
  | nil => intro c; simp
  | cons e cs ih =>
    intro c
    show evalCond r (List.foldl .orC (.orC c e) cs) = _
    rw [ih]
    simp [evalCond, Bool.or_assoc]

/-- Sorting-key comparison on the default ORDER BY id ASC is the id
    order. -/
theorem rowKeyLe_id_asc (a b : Row) : rowKeyLe "id" "ASC" a b = decide (a.id ≤ b.id) := by
  simp [rowKeyLe, rowLookup, valueLeB]

/-- Insertion sort is the identity on a list already strictly increasing
    in id, under the default ORDER BY comparison. -/
theorem sortLe_id_of_pairwise :
    ∀ (l : List Row), l.Pairwise (fun a b => a.id < b.id) →
      sortLe (rowKeyLe "id" "ASC") l = l := by
  intro l hl
  induction l with
  | nil => rfl
  | cons a l ih =>
    rw [List.pairwise_cons] at hl
    show insertLe (rowKeyLe "id" "ASC") a (sortLe (rowKeyLe "id" "ASC") l) = a :: l
    rw [ih hl.2]
    cases l with
    | nil => rfl
    | cons b l2 =>
      show (if rowKeyLe "id" "ASC" a b then a :: b :: l2 else b :: insertLe _ a l2) = _
      rw [rowKeyLe_id_asc]
      simp [le_of_lt (hl.1 b (List.mem_cons_self b l2))]

/-- Association lookup finds a member pair when the keys are pairwise
    distinct. -/
theorem lookup_eq_some_of_mem_nodup :
    ∀ (l : List (Ident × Value)) (k : Ident) (v : Value),
      (k, v) ∈ l → l.Pairwise (fun a b => a.1 ≠ b.1) → l.lookup k = some v := by
  intro l
  induction l with
  | nil => intro k v h; cases h
  | cons kv l ih =>
    intro k v hmem hnd
    rw [List.pairwise_cons] at hnd
    rcases List.mem_cons.mp hmem with rfl | h2
    · simp [List.lookup]
    · have hk : kv.1 ≠ k := by
        intro he
        exact (hnd.1 (k, v) h2) he
      have hbeq : (k == kv.1) = false := by
        rw [beq_eq_false_iff_ne]
        exact Ne.symm hk
      simp only [List.lookup, hbeq]
      exact ih k v h2 hnd.2

/-! ## Claim C10 -/

/-- C10: for every table name without a `_tables` catalog row,
    `delete_record` returns silently, raising nothing and deleting
    nothing — the state is returned unchanged even when a backing storage
    table of that name exists and holds the record. -/
theorem c10_delete_unknown_table_silent (db : DB) (table : Ident) (rid : Int)
    (h : db.tables.find? (fun t => t.name = table) = none) :
    delete_record db table rid = .ok db := by
  unfold delete_record
  rw [h]

/-- Witness for C10: the ghost state has no catalog row for ghost while
    its storage table holds record #1; `delete_record` returns the state
    unchanged and the record is still there. -/
theorem c10_witness :
    get_record ghostDB "ghost" 1 = some ⟨1, .int 0, .int 0, []⟩ ∧
    delete_record ghostDB "ghost" 1 = .ok ghostDB := by
  refine ⟨by decide, ?_⟩
  exact c10_delete_unknown_table_silent ghostDB "ghost" 1 (by decide)

/-! ## Claim C8 -/

/-- C8: in `get_records` the offset takes effect only under a truthy
    limit: every call with limit omitted (None) or 0 ignores the offset
    entirely — the result equals the offset-0 (and clause-free) query and
    so starts from the first row of the ordered sequence. -/
theorem c8_offset_ignored_without_limit (db : DB) (table : Ident) (limit : Option Int)
    (offset : Int) (order_by order_dir : Ident) (whereC : Option Cond)
    (h : limit = none ∨ limit = some 0) :
    get_records db table limit offset order_by order_dir whereC =
      get_records db table none 0 order_by order_dir whereC := by
  rcases h with rfl | rfl <;>
    · unfold get_records
      cases lookupStorage db table <;> simp [applyLimit]

/-- Witness for C8: listing with limit None and offset 5 equals the
    offset-0 listing (and with limit 0 likewise). -/
theorem c8_witness :
    get_records twoRowDB "t" none 5 "id" "ASC" none =
      get_records twoRowDB "t" none 0 "id" "ASC" none ∧
    get_records twoRowDB "t" (some 0) 5 "id" "ASC" none =
      get_records twoRowDB "t" none 0 "id" "ASC" none := by
  exact ⟨c8_offset_ignored_without_limit twoRowDB "t" none 5 "id" "ASC" none (Or.inl rfl),
         c8_offset_ignored_without_limit twoRowDB "t" (some 0) 5 "id" "ASC" none (Or.inr rfl)⟩

/-! ## Claim C2 -/

/-- Counterexample for C2: calling `add_field` with a table id absent from
    the catalog does not fail with any error — on the empty database it
    returns `.ok` unchanged, in particular it does not raise the
    UnknownTableError the claim demands. -/
theorem c2_counterexample :
    add_field emptyDB 1 (textFieldSpec "f") = .ok emptyDB ∧
    add_field emptyDB 1 (textFieldSpec "f") ≠ .error .unknownTable := by
  exact ⟨by decide, by decide⟩

/-- C2 (amended): for every `add_field` call whose table id names no
    catalog row, the operation returns silently (no error of any kind) and
    performs no mutation of the catalog or the storage: the state is
    returned exactly unchanged. -/
theorem c2_add_field_unknown_table_silent (db : DB) (table_id : Int) (spec : FieldSpec)
    (h : get_table db table_id = none) :
    add_field db table_id spec = .ok db := by
  unfold add_field
  rw [h]

/-- Witness for C2: on the empty database, table id 2 is unknown and
    `add_field` returns the state unchanged. -/
theorem c2_witness : add_field emptyDB 2 (textFieldSpec "g") = .ok emptyDB := by
  exact c2_add_field_unknown_table_silent emptyDB 2 (textFieldSpec "g") (by decide)

/-! ## Claim C3 -/

/-- C1 (code bug): the cascade scenario is set up exactly as the
    specification demands (Author and Book exist, Book #1 references
    Author #1 through a reference field with cascade_delete enabled), yet
    `delete_record` on Author #1 raises AttributeError — line 269 of
    src/database.py calls the undefined method `self.get_tables()` — before
    any cascade scan or DELETE, so Book #1 is not removed and neither is
    the author row. -/
theorem c1_cascade_delete_crashes :
    cascadeBuild = .ok cascadeDB ∧
    get_record cascadeDB "books" 1 =
      some ⟨1, .int 11, .int 11,
        [("title", .text "Foundation".toList), ("author", .int 1)]⟩ ∧
    (cascadeDB.fields.any (fun f =>
      f.field_type = "reference" && f.reference_table_id = some 1 && f.cascade_delete)) = true ∧
    delete_record cascadeDB "authors" 1 = .error .attributeError := by
  exact ⟨by decide, by decide, by decide, by decide⟩

/-! ## Claim C9 -/

/-- A filter entry whose type the if/elif chain does not recognize
    contributes no WHERE fragment. -/
theorem condParts_unrecognized (db : DB) (fn : Ident) (cfg : FilterConfig)
    (h : recognizedType cfg.type = false) : condParts db fn cfg = [] := by
  have hne : ∀ s : Ident, recognizedType s = true → cfg.type ≠ s := by
    intro s hs he
    rw [he, hs] at h
    cases h
  unfold condParts
  rw [if_neg (hne "text" (by decide)), if_neg (hne "number_range" (by decide)),
      if_neg (hne "date_range" (by decide)), if_neg (hne "boolean" (by decide)),
      if_neg (hne "dropdown" (by decide)), if_neg (hne "reference" (by decide))]

/-- Dropping the unrecognized entries changes no collected fragment. -/
theorem flatMap_condParts_filter (db : DB) :
    ∀ filters : List (Ident × FilterConfig),
      filters.flatMap (fun fc => condParts db fc.1 fc.2) =
        (filters.filter (fun fc => recognizedType fc.2.type)).flatMap
          (fun fc => condParts db fc.1 fc.2) := by
  intro filters
  induction filters with
  | nil => rfl
  | cons fc fl ih =>
    cases h : recognizedType fc.2.type with
    | true =>
      rw [List.flatMap_cons, List.filter_cons_of_pos (by simp [h]), List.flatMap_cons, ih]
    | false =>
      rw [List.flatMap_cons, List.filter_cons_of_neg (by simp [h]), ih,
          condParts_unrecognized db fc.1 fc.2 h, List.nil_append]

/-- C9: filter entries of unrecognized type are silently ignored —
    filtering behaves exactly as if those entries were absent, and a
    filter dict made only of unrecognized entries returns the full
    unfiltered listing. -/
theorem c9_unrecognized_filters_ignored (db : DB) (table : Ident)
    (filters : List (Ident × FilterConfig)) :
    filter_records db table filters =
      filter_records db table (filters.filter (fun fc => recognizedType fc.2.type)) ∧
    ((∀ fc ∈ filters, recognizedType fc.2.type = false) →
      filter_records db table filters = get_records db table none 0 "id" "ASC" none) := by
  have h1 : filter_records db table filters =
      filter_records db table (filters.filter (fun fc => recognizedType fc.2.type)) := by
    cases filters with
    | nil => rfl
    | cons fc fl =>
      show get_records db table none 0 "id" "ASC"
          (foldAndC ((fc :: fl).flatMap (fun fc => condParts db fc.1 fc.2))) = _
      rw [flatMap_condParts_filter]
      cases hl : (fc :: fl).filter (fun fc => recognizedType fc.2.type) with
      | nil => rfl
      | cons b bl => rfl
  refine ⟨h1, ?_⟩
  intro hall
  rw [h1]
  have : filters.filter (fun fc => recognizedType fc.2.type) = [] := by
    rw [List.filter_eq_nil_iff]
    intro a ha
    simp [hall a ha]
  rw [this]
  rfl

/-- Witness for C9: a single bogus-typed entry produces the full
    listing of the two-row table. -/
theorem c9_witness :
    filter_records twoRowDB "t" [("a", bogusFilterCfg)] =
      get_records twoRowDB "t" none 0 "id" "ASC" none := by
  exact (c9_unrecognized_filters_ignored twoRowDB "t" [("a", bogusFilterCfg)]).2
    (by intro fc hfc; rcases List.mem_singleton.mp hfc with rfl; decide)

/-! ## Claim C7 -/

/-- The reference branch of `condParts` contributes the unsatisfiable
    fragment when the (well-formed) referenced-table search finds no
    matching row. -/
theorem condParts_reference_unsat (db : DB) (fn : Ident) (cfg : FilterConfig)
    (fm : FieldMeta) (rtid : Int) (rt : TableMeta)
    (ht : cfg.type = "reference") (hf : cfg.field = some fm)
    (hr : fm.reference_table_id = some rtid) (h0 : rtid ≠ 0)
    (hgt : get_table db rtid = some rt)
    (hs : (searchableRefFields db rtid).isEmpty = false)
    (hm : (refMatching db rt.name (searchableRefFields db rtid) cfg.value).isEmpty = true) :
    condParts db fn cfg = [.falseC] := by
  have hne : ∀ s : Ident, s ≠ "reference" → cfg.type ≠ s := by
    intro s hs2 he
    rw [ht] at he
    exact hs2 he.symm
  unfold condParts
  rw [if_neg (hne "text" (by decide)), if_neg (hne "number_range" (by decide)),
      if_neg (hne "date_range" (by decide)), if_neg (hne "boolean" (by decide)),
      if_neg (hne "dropdown" (by decide)), if_pos ht]
  simp [hf, hr, h0, hgt, hs, hm]

/-- C7 (amended): a reference filter whose field metadata is present, whose
    reference_table_id names an existing table, and whose referenced table
    has at least one text-like field, turns a term matching zero referenced
    rows into the deliberately-unsatisfiable fragment: the whole filter
    call returns the empty result set (and no error). Without a text-like
    field in the referenced table the branch contributes no predicate at
    all (see the counterexample), which is why these hypotheses are
    needed. -/
theorem c7_reference_filter_zero_matches_empty (db : DB) (table : Ident)
    (filters : List (Ident × FilterConfig)) (fn : Ident) (cfg : FilterConfig)
    (fm : FieldMeta) (rtid : Int) (rt : TableMeta)
    (hmem : (fn, cfg) ∈ filters)
    (ht : cfg.type = "reference") (hf : cfg.field = some fm)
    (hr : fm.reference_table_id = some rtid) (h0 : rtid ≠ 0)
    (hgt : get_table db rtid = some rt)
    (hs : (searchableRefFields db rtid).isEmpty = false)
    (hm : (refMatching db rt.name (searchableRefFields db rtid) cfg.value).isEmpty = true) :
    filter_records db table filters = [] := by
  have hcp : condParts db fn cfg = [.falseC] :=
    condParts_reference_unsat db fn cfg fm rtid rt ht hf hr h0 hgt hs hm
  have hfc : Cond.falseC ∈ filters.flatMap (fun fc => condParts db fc.1 fc.2) := by
    rw [List.mem_flatMap]
    exact ⟨(fn, cfg), hmem, by rw [hcp]; exact List.mem_singleton.mpr rfl⟩
  cases filters with
  | nil => cases hmem
  | cons fc0 fl =>
    show get_records db table none 0 "id" "ASC"
        (foldAndC ((fc0 :: fl).flatMap (fun fc => condParts db fc.1 fc.2))) = []
    cases hp : (fc0 :: fl).flatMap (fun fc => condParts db fc.1 fc.2) with
    | nil => rw [hp] at hfc; cases hfc
    | cons c cs =>
      rw [hp] at hfc
      have hfalse : ∀ r : Row, evalCond r (cs.foldl .andC c) = false := by
        intro r
        apply foldl_andC_false
        rcases List.mem_cons.mp hfc with rfl | hin
        · left; rfl
        · right; exact ⟨.falseC, hin, rfl⟩
      show get_records db table none 0 "id" "ASC" (foldAndC (c :: cs)) = []
      unfold get_records
      cases lookupStorage db table with
      | none => rfl
      | some st =>
        simp only [foldAndC]
        have : st.rows.filter (fun r => evalCond r (cs.foldl .andC c)) = [] := by
          rw [List.filter_eq_nil_iff]
          intro r _
          simp [hfalse r]
        rw [this]
        rfl

/-- Counterexample for C7: in the noTextRef state the referenced authors
    table exists but has no text-like field (indeed no rows either, so the
    term certainly matches zero referenced rows — the first conjunct), yet
    the reference filter contributes no predicate at all and the filter
    call returns the full nonempty books listing instead of the empty
    result the claim demands. -/
theorem c7_counterexample :
    get_records noTextRefDB "authors" none 0 "id" "ASC" none = [] ∧
    filter_records noTextRefDB "books" [("author", refFilterCfg "x".toList)] =
      [⟨1, .int 0, .int 0, [("author", .int 7)]⟩] := by
  exact ⟨by decide, by decide⟩

/-- Witness for C7: authors has the text-like field name and no rows, so
    the term zzz matches zero referenced rows and filtering books by it
    returns the empty result. -/
theorem c7_witness :
    filter_records emptyRefDB "books" [("author", refFilterCfg "zzz".toList)] = [] := by
  exact c7_reference_filter_zero_matches_empty emptyRefDB "books"
    [("author", refFilterCfg "zzz".toList)] "author" (refFilterCfg "zzz".toList)
    authorRefField 1 ⟨1, "authors", "Author".toList⟩
    (List.mem_singleton.mpr rfl) rfl rfl rfl (by decide) (by decide) (by decide) (by decide)

/-! ## Claim C6 -/

/-- The falsy guard of `normalize_search` is semantically transparent. -/
theorem normalizeSearch_eq_core : ∀ s : Str, normalizeSearch s = normCore s := by
  intro s
  cases s with
  | nil => rfl
  | cons a t => rfl

/-- Normalization distributes over concatenation. -/
theorem normCore_append (a b : Str) : normCore (a ++ b) = normCore a ++ normCore b := by
  simp [normCore]

/-- `anySuffix` only depends on the pointwise behaviour of its test. -/
theorem anySuffix_congr (f g : Str → Bool) (h : ∀ t, f t = g t) :
    ∀ t, anySuffix f t = anySuffix g t := by
  intro t
  induction t with
  | nil => exact h []
  | cons b t ih => show (f (b :: t) || _) = (g (b :: t) || _); rw [h (b :: t), ih]

/-- The empty pattern after a `%` matches every text. -/
theorem anySuffix_isEmpty : ∀ t : Str, anySuffix (fun s => s.isEmpty) t = true := by
  intro t
  induction t with
  | nil => rfl
  | cons b t ih => show (_ || _) = true; rw [ih]; simp

/-- `startsWithStr` against the empty text. -/
theorem startsWithStr_nil (q : Str) : startsWithStr q [] = q.isEmpty := by
  cases q <;> rfl

/-- A wildcard-free pattern followed by a single trailing `%` matches
    exactly the texts that start with it. -/
theorem likeMatch_append_percent (q : Str) (hq : ∀ c ∈ q, c ≠ '%' ∧ c ≠ '_') :
    ∀ t : Str, likeMatch (q ++ ['%']) t = startsWithStr q t := by
  induction q with
  | nil =>
    intro t
    show likeMatch ['%'] t = true
    show anySuffix (likeMatch []) t = true
    rw [anySuffix_congr (likeMatch []) (fun s => s.isEmpty) (fun s => rfl) t]
    exact anySuffix_isEmpty t
  | cons c q2 ih =>
    intro t
    have hc := hq c (List.mem_cons_self c q2)
    have ih2 := ih (fun d hd => hq d (List.mem_cons_of_mem c hd))
    show (if c = '%' then _ else _) = _
    rw [if_neg hc.1]
    cases t with
    | nil => rfl
    | cons d t2 =>
      show (if c = '_' then likeMatch (q2 ++ ['%']) t2
            else decide (c = d) && likeMatch (q2 ++ ['%']) t2) = _
      rw [if_neg hc.2, ih2 t2]
      rfl

/-- Trying a wildcard-free needle at every suffix is substring
    containment. -/
theorem anySuffix_startsWith (q : Str) :
    ∀ t : Str, anySuffix (startsWithStr q) t = containsStr q t := by
  intro t
  induction t with
  | nil => exact startsWithStr_nil q
  | cons b t ih =>
    show (startsWithStr q (b :: t) || _) = (startsWithStr q (b :: t) || _)
    rw [ih]

/-- A pattern of the shape percent, wildcard-free needle, percent matches
    exactly the texts containing the needle. -/
theorem likeMatch_wrap (q : Str) (hq : ∀ c ∈ q, c ≠ '%' ∧ c ≠ '_') (t : Str) :
    likeMatch ('%' :: (q ++ ['%'])) t = containsStr q t := by
  show anySuffix (likeMatch (q ++ ['%'])) t = _
  rw [anySuffix_congr _ (startsWithStr q) (likeMatch_append_percent q hq) t,
      anySuffix_startsWith q t]

/-- Normalizing the bound parameter percent-term-percent normalizes the
    term between untouched percents. -/
theorem normalizeSearch_wrap (term : Str) :
    normalizeSearch ('%' :: term ++ ['%']) = '%' :: (normCore term ++ ['%']) := by
  rw [normalizeSearch_eq_core]
  show normCore (['%'] ++ term ++ ['%']) = _
  rw [normCore_append, normCore_append]
  rfl

/-- C6: search is accent- and case-insensitive substring containment of
    the normalized term in the normalized column text, ORed across the
    given fields (a NULL or non-text column value never matches). Stated
    for any term free of LIKE wildcards after normalization, over any
    id-ordered table. -/
theorem c6_search_is_normalized_substring (db : DB) (table : Ident) (st : StorageTable)
    (fields : List Ident) (term : Str)
    (hst : lookupStorage db table = some st)
    (hsorted : st.rows.Pairwise (fun a b => a.id < b.id))
    (hfields : fields ≠ [])
    (hterm : term ≠ [])
    (hwild : ∀ c ∈ normCore term, c ≠ '%' ∧ c ≠ '_') :
    search_records db table fields term =
      st.rows.filter (fun r => fields.any (fun f =>
        match rowLookup r f with
        | .text s => containsStr (normCore term) (normCore s)
        | _ => false)) := by
  have hterm2 : term.isEmpty = false := by
    cases term with
    | nil => exact absurd rfl hterm
    | cons a t => rfl
  have hone : ∀ (r : Row) (f : Ident),
      evalCond r (.likeNormC f ('%' :: term ++ ['%'])) =
        (match rowLookup r f with
         | .text s => containsStr (normCore term) (normCore s)
         | _ => false) := by
    intro r f
    cases hx : rowLookup r f with
    | text s =>
      simp only [evalCond, hx]
      rw [normalizeSearch_wrap, normalizeSearch_eq_core s]
      exact likeMatch_wrap (normCore term) hwild (normCore s)
    | null => simp only [evalCond, hx]
    | int n => simp only [evalCond, hx]
  cases fields with
  | nil => exact absurd rfl hfields
  | cons f0 fs =>
    unfold search_records
    rw [if_neg (by rw [hterm2]; simp)]
    show get_records db table none 0 "id" "ASC"
      (some ((fs.map (fun f => Cond.likeNormC f ('%' :: term ++ ['%']))).foldl .orC
        (.likeNormC f0 ('%' :: term ++ ['%'])))) = _
    unfold get_records
    rw [hst]
    show applyLimit none 0 (sortLe (rowKeyLe "id" "ASC") (st.rows.filter _)) = _
    have hfeq : st.rows.filter (fun r => evalCond r
        ((fs.map (fun f => Cond.likeNormC f ('%' :: term ++ ['%']))).foldl .orC
          (.likeNormC f0 ('%' :: term ++ ['%'])))) =
        st.rows.filter (fun r => (f0 :: fs).any (fun f =>
          match rowLookup r f with
          | .text s => containsStr (normCore term) (normCore s)
          | _ => false)) := by
      apply List.filter_congr
      intro r _
      rw [foldl_orC_eval]
      have hmap : ∀ l : List Ident,
          (l.map (fun f => Cond.likeNormC f ('%' :: term ++ ['%']))).any
              (fun d => evalCond r d) =
            l.any (fun f => (match rowLookup r f with
              | Value.text s => containsStr (normCore term) (normCore s)
              | _ => false)) := by
        intro l
        induction l with
        | nil => rfl
        | cons x xs ih => simp only [List.map_cons, List.any_cons, ih, hone r x]
      rw [hmap fs, hone r f0, List.any_cons]
    rw [hfeq]
    have hp2 : (st.rows.filter (fun r => (f0 :: fs).any (fun f =>
        match rowLookup r f with
        | .text s => containsStr (normCore term) (normCore s)
        | _ => false))).Pairwise (fun a b => a.id < b.id) :=
      hsorted.sublist (List.filter_sublist _)
    rw [sortLe_id_of_pairwise _ hp2]
    rfl

/-- Witness for C6: the specification scenario — person rows Café, cafe
    and CAFÉ are all three returned by searching name for cafe. -/
theorem c6_witness :
    search_records personDB "person" ["name"] "cafe".toList = personRows := by
  have h := c6_search_is_normalized_substring personDB "person"
    ⟨[("name", "TEXT")], personRows, 4⟩ ["name"] "cafe".toList
    (by decide) (by decide) (by decide) (by decide) (by decide)
  exact h.trans (by decide)

/-! ## Claim C4 -/

/-- After replacing a named storage table, looking the name up yields the
    replacement (provided the name was present). -/
theorem lookup_map_replace (table : Ident) (st2 : StorageTable) :
    ∀ (l : List (Ident × StorageTable)) (st : StorageTable), l.lookup table = some st →
      (l.map (fun p => if p.1 = table then (p.1, st2) else p)).lookup table = some st2 := by
  intro l
  induction l with
  | nil => intro st h; cases h
  | cons p l ih =>
    intro st h
    by_cases hp : p.1 = table
    · have hbeq : (table == p.1) = true := by rw [beq_iff_eq]; exact hp.symm
      rw [List.map_cons, if_pos hp]
      simp only [List.lookup, hbeq]
    · have hbeq : (table == p.1) = false := by rw [beq_eq_false_iff_ne]; exact fun he => hp he.symm
      simp only [List.lookup, hbeq] at h
      rw [List.map_cons, if_neg hp]
      simp only [List.lookup, hbeq]
      exact ih st h

/-- `find?` skips a block in which nothing satisfies the test. -/
theorem find?_append_of_none (p : Row → Bool) (l2 : List Row) :
    ∀ l1 : List Row, l1.find? p = none → (l1 ++ l2).find? p = l2.find? p := by
  intro l1
  induction l1 with
  | nil => intro _; rfl
  | cons a l ih =>
    intro h
    rw [List.find?_cons] at h
    cases hp : p a with
    | true => rw [hp] at h; cases h
    | false =>
      rw [hp] at h
      rw [List.cons_append, List.find?_cons, hp]
      exact ih h

/-- Looking up a column name in the freshly built row yields the
    generating function at that name, for any declared column. -/
theorem lookup_colmap (g : Ident → Value) (k : Ident) :
    ∀ cols : List (Ident × Ident), cols.any (fun c => c.1 = k) = true →
      (cols.map (fun c => (c.1, g c.1))).lookup k = some (g k) := by
  intro cols
  induction cols with
  | nil => intro h; cases h
  | cons c l ih =>
    intro h
    by_cases hc : c.1 = k
    · have hbeq : (k == c.1) = true := by rw [beq_iff_eq]; exact hc.symm
      rw [List.map_cons]
      simp only [List.lookup, hbeq, hc]
      simp
    · have hbeq : (k == c.1) = false := by rw [beq_eq_false_iff_ne]; exact fun he => hc he.symm
      rw [List.map_cons]
      simp only [List.lookup, hbeq]
      apply ih
      rw [List.any_cons] at h
      simpa [hc] using h

/-- C4: round-trip. Inserting any data mapping whose (deduplicated) keys
    are declared columns and reading the returned id back yields every
    supplied column unchanged, plus the server-assigned id and both
    timestamps stamped to the insertion instant; caller-supplied id /
    created_at / updated_at entries are stripped, and empty (post-strip)
    data produces a row of storage defaults (NULL in every declared
    column). -/
theorem c4_insert_get_roundtrip (db : DB) (table : Ident) (data : List (Ident × Value))
    (now : Int) (st : StorageTable)
    (hst : lookupStorage db table = some st)
    (hfresh : ∀ r ∈ st.rows, r.id ≠ st.nextId)
    (hcols : ∀ kv ∈ stripInsert data, st.columns.any (fun c => c.1 = kv.1) = true)
    (hnodup : (stripInsert data).Pairwise (fun a b => a.1 ≠ b.1)) :
    ∃ db2 row,
      insert_record db table data now = .ok (db2, st.nextId) ∧
      get_record db2 table st.nextId = some row ∧
      row.id = st.nextId ∧
      row.created_at = .int now ∧
      row.updated_at = .int now ∧
      (∀ k v, (k, v) ∈ data → k ≠ "id" → k ≠ "created_at" → k ≠ "updated_at" →
        row.cols.lookup k = some v) ∧
      (stripInsert data = [] → row.cols = st.columns.map (fun c => (c.1, Value.null))) := by
  have hall : (stripInsert data).all (fun kv => st.columns.any (fun c => c.1 = kv.1)) = true := by
    rw [List.all_eq_true]
    exact hcols
  refine ⟨setStorage db table
      { st with rows := st.rows ++ [insertedRow st (stripInsert data) now],
                nextId := st.nextId + 1 },
    insertedRow st (stripInsert data) now, ?_, ?_, rfl, rfl, rfl, ?_, ?_⟩
  · unfold insert_record
    rw [hst]
    simp [hall]
  · unfold get_record
    have hl2 := lookup_map_replace table
      { st with rows := st.rows ++ [insertedRow st (stripInsert data) now],
                nextId := st.nextId + 1 } db.storage st hst
    unfold lookupStorage setStorage
    rw [hl2]
    show (st.rows ++ [insertedRow st (stripInsert data) now]).find?
        (fun r => r.id = st.nextId) = _
    rw [find?_append_of_none _ _ st.rows
        (List.find?_eq_none.mpr (fun r hr => by simp [hfresh r hr]))]
    rw [List.find?_cons]
    have : (decide ((insertedRow st (stripInsert data) now).id = st.nextId)) = true := by
      simp [insertedRow]
    rw [this]
  · intro k v hmem hk1 hk2 hk3
    have hstrip : (k, v) ∈ stripInsert data := by
      rw [stripInsert, List.mem_filter]
      exact ⟨hmem, by simp [hk1, hk2, hk3]⟩
    have hlk : (stripInsert data).lookup k = some v :=
      lookup_eq_some_of_mem_nodup (stripInsert data) k v hstrip hnodup
    show (st.columns.map (fun c => (c.1, ((stripInsert data).lookup c.1).getD .null))).lookup k
        = some v
    rw [lookup_colmap (fun c1 => ((stripInsert data).lookup c1).getD .null) k st.columns
        (hcols (k, v) hstrip)]
    rw [hlk]
    rfl
  · intro hempty
    show st.columns.map (fun c => (c.1, ((stripInsert data).lookup c.1).getD .null)) = _
    rw [hempty]
    rfl

/-- Witness for C4: inserting {a: n, id: 99} into the two-row table
    assigns id 3, stamps both timestamps, stores a unchanged and strips
    the caller-supplied id. -/
theorem c4_witness :
    ∃ db2 row,
      insert_record twoRowDB "t" [("a", Value.text "n".toList), ("id", Value.int 99)] 5 =
        .ok (db2, 3) ∧
      get_record db2 "t" 3 = some row ∧
      row.id = 3 ∧
      row.created_at = .int 5 ∧
      row.updated_at = .int 5 ∧
      (∀ k v, (k, v) ∈ [("a", Value.text "n".toList), ("id", Value.int 99)] →
        k ≠ "id" → k ≠ "created_at" → k ≠ "updated_at" → row.cols.lookup k = some v) ∧
      (stripInsert [("a", Value.text "n".toList), ("id", Value.int 99)] = [] →
        row.cols = [("a", Value.null), ("b", Value.null)]) := by
  exact c4_insert_get_roundtrip twoRowDB "t"
    [("a", Value.text "n".toList), ("id", Value.int 99)] 5
    ⟨[("a", "TEXT"), ("b", "TEXT")],
      [⟨1, .int 1, .int 1, [("a", .text "x".toList), ("b", .text "y".toList)]⟩,
       ⟨2, .int 2, .int 2, [("a", .text "u".toList), ("b", .text "v".toList)]⟩], 3⟩
    (by decide) (by decide) (by decide) (by decide)

/-! ## Claim C5 -/

/-- No SET assignment touches the row id. -/
theorem applyAssign_id (r : Row) (kv : Ident × Value) : (applyAssign r kv).id = r.id := by
  unfold applyAssign
  by_cases h1 : kv.1 = "updated_at"
  · rw [if_pos h1]
  · rw [if_neg h1]
    by_cases h2 : kv.1 = "created_at"
    · rw [if_pos h2]
    · rw [if_neg h2]

/-- Folding SET assignments never changes the id. -/
theorem foldApply_id : ∀ (l : List (Ident × Value)) (r : Row),
    (l.foldl applyAssign r).id = r.id := by
  intro l
  induction l with
  | nil => intro r; rfl
  | cons kv l ih => intro r; rw [List.foldl_cons, ih, applyAssign_id]

/-- An assignment to another key leaves created_at alone. -/
theorem applyAssign_created (r : Row) (kv : Ident × Value) (h : kv.1 ≠ "created_at") :
    (applyAssign r kv).created_at = r.created_at := by
  unfold applyAssign
  by_cases h1 : kv.1 = "updated_at"
  · rw [if_pos h1]
  · rw [if_neg h1, if_neg h]

/-- Folding assignments none of which names created_at preserves it. -/
theorem foldApply_created : ∀ (l : List (Ident × Value)),
    (∀ kv ∈ l, kv.1 ≠ "created_at") → ∀ r : Row,
      (l.foldl applyAssign r).created_at = r.created_at := by
  intro l
  induction l with
  | nil => intro _ r; rfl
  | cons kv l ih =>
    intro h r
    rw [List.foldl_cons, ih (fun b hb => h b (List.mem_cons_of_mem kv hb)),
        applyAssign_created r kv (h kv (List.mem_cons_self kv l))]

/-- The updated_at assignment sets updated_at. -/
theorem applyAssign_updated_set (r : Row) (v : Value) :
    (applyAssign r ("updated_at", v)).updated_at = v := rfl

/-- An assignment to another key leaves updated_at alone. -/
theorem applyAssign_updated_frame (r : Row) (kv : Ident × Value) (h : kv.1 ≠ "updated_at") :
    (applyAssign r kv).updated_at = r.updated_at := by
  unfold applyAssign
  rw [if_neg h]
  by_cases h2 : kv.1 = "created_at"
  · rw [if_pos h2]
  · rw [if_neg h2]

/-- Folding assignments none of which names updated_at preserves it. -/
theorem foldApply_updated_frame : ∀ (l : List (Ident × Value)),
    (∀ kv ∈ l, kv.1 ≠ "updated_at") → ∀ r : Row,
      (l.foldl applyAssign r).updated_at = r.updated_at := by
  intro l
  induction l with
  | nil => intro _ r; rfl
  | cons kv l ih =>
    intro h r
    rw [List.foldl_cons, ih (fun b hb => h b (List.mem_cons_of_mem kv hb)),
        applyAssign_updated_frame r kv (h kv (List.mem_cons_self kv l))]

/-- With pairwise-distinct keys, the one updated_at assignment wins. -/
theorem foldApply_updated : ∀ (l : List (Ident × Value)) (v : Value),
    l.Pairwise (fun a b => a.1 ≠ b.1) → ("updated_at", v) ∈ l → ∀ r : Row,
      (l.foldl applyAssign r).updated_at = v := by
  intro l
  induction l with
  | nil => intro v _ hm; cases hm
  | cons kv l ih =>
    intro v hnd hm r
    rw [List.pairwise_cons] at hnd
    rcases List.mem_cons.mp hm with rfl | hm2
    · rw [List.foldl_cons,
          foldApply_updated_frame l (fun b hb he => hnd.1 b hb he.symm) _]
      exact applyAssign_updated_set r v
    · exact ih v hnd.2 hm2 (applyAssign r kv)

/-- Replacing entries of one key does not affect lookups of another. -/
theorem lookup_replace_ne (k : Ident) (v : Value) (c : Ident) (h : k ≠ c) :
    ∀ l : List (Ident × Value),
      (l.map (fun p => if p.1 = k then (k, v) else p)).lookup c = l.lookup c := by
  intro l
  induction l with
  | nil => rfl
  | cons p l ih =>
    by_cases hp : p.1 = k
    · have hb1 : (c == k) = false := by rw [beq_eq_false_iff_ne]; exact fun he => h he.symm
      have hb2 : (c == p.1) = false := by
        rw [beq_eq_false_iff_ne]
        rw [hp]
        exact fun he => h he.symm
      rw [List.map_cons, if_pos hp]
      simp only [List.lookup, hb1, hb2]
      exact ih
    · rw [List.map_cons, if_neg hp]
      cases hb : c == p.1 with
      | true => simp only [List.lookup, hb]
      | false => simp only [List.lookup, hb]; exact ih

/-- Replacing entries of a present key makes its lookup the new value. -/
theorem lookup_replace_self (k : Ident) (v : Value) :
    ∀ l : List (Ident × Value), k ∈ l.map Prod.fst →
      (l.map (fun p => if p.1 = k then (k, v) else p)).lookup k = some v := by
  intro l
  induction l with
  | nil => intro h; cases h
  | cons p l ih =>
    intro h
    by_cases hp : p.1 = k
    · rw [List.map_cons, if_pos hp]
      simp only [List.lookup, beq_self_eq_true]
    · rw [List.map_cons, if_neg hp]
      have hb : (k == p.1) = false := by rw [beq_eq_false_iff_ne]; exact fun he => hp he.symm
      simp only [List.lookup, hb]
      apply ih
      rw [List.map_cons] at h
      rcases List.mem_cons.mp h with he | hm
      · exact absurd he.symm hp
      · exact hm

/-- SET assignments preserve the column-name list of a row. -/
theorem applyAssign_cols_keys (r : Row) (kv : Ident × Value) :
    (applyAssign r kv).cols.map Prod.fst = r.cols.map Prod.fst := by
  unfold applyAssign
  by_cases h1 : kv.1 = "updated_at"
  · rw [if_pos h1]
  · rw [if_neg h1]
    by_cases h2 : kv.1 = "created_at"
    · rw [if_pos h2]
    · rw [if_neg h2]
      show (r.cols.map _).map Prod.fst = _
      rw [List.map_map]
      apply List.map_congr_left
      intro p _
      by_cases hp : p.1 = kv.1
      · simp [hp]
      · simp [hp]

/-- An assignment to another key does not affect a column lookup. -/
theorem applyAssign_cols_lookup_ne (r : Row) (kv : Ident × Value) (c : Ident)
    (h : kv.1 ≠ c) : (applyAssign r kv).cols.lookup c = r.cols.lookup c := by
  unfold applyAssign
  by_cases h1 : kv.1 = "updated_at"
  · rw [if_pos h1]
  · rw [if_neg h1]
    by_cases h2 : kv.1 = "created_at"
    · rw [if_pos h2]
    · rw [if_neg h2]
      exact lookup_replace_ne kv.1 kv.2 c h r.cols

/-- Folding assignments that never name a column leaves its lookup. -/
theorem foldApply_cols_frame : ∀ (l : List (Ident × Value)) (c : Ident),
    (∀ kv ∈ l, kv.1 ≠ c) → ∀ r : Row,
      (l.foldl applyAssign r).cols.lookup c = r.cols.lookup c := by
  intro l
  induction l with
  | nil => intro _ _ r; rfl
  | cons kv l ih =>
    intro c h r
    rw [List.foldl_cons, ih c (fun b hb => h b (List.mem_cons_of_mem kv hb)),
        applyAssign_cols_lookup_ne r kv c (h kv (List.mem_cons_self kv l))]

/-- With pairwise-distinct keys, the one assignment to a declared column
    sets its stored value. -/
theorem foldApply_cols_set : ∀ (l : List (Ident × Value)) (k : Ident) (v : Value),
    l.Pairwise (fun a b => a.1 ≠ b.1) → (k, v) ∈ l →
    k ≠ "updated_at" → k ≠ "created_at" → ∀ r : Row, k ∈ r.cols.map Prod.fst →
      (l.foldl applyAssign r).cols.lookup k = some v := by
  intro l
  induction l with
  | nil => intro k v _ hm; cases hm
  | cons kv l ih =>
    intro k v hnd hm hk1 hk2 r hin
    rw [List.pairwise_cons] at hnd
    rcases List.mem_cons.mp hm with rfl | hm2
    · rw [List.foldl_cons, foldApply_cols_frame l k (fun b hb he => hnd.1 b hb he.symm) _]
      show (applyAssign r (k, v)).cols.lookup k = some v
      unfold applyAssign
      rw [if_neg hk1, if_neg hk2]
      exact lookup_replace_self k v r.cols hin
    · rw [List.foldl_cons]
      apply ih k v hnd.2 hm2 hk1 hk2
      rw [applyAssign_cols_keys]
      exact hin

/-- The dict assignment leaves its own entry in the result. -/
theorem mem_setKey_self (k : Ident) (v : Value) :
    ∀ l : List (Ident × Value), (k, v) ∈ setKey l k v := by
  intro l
  induction l with
  | nil => exact List.mem_singleton.mpr rfl
  | cons kv l ih =>
    unfold setKey
    by_cases hp : kv.1 = k
    · rw [if_pos hp]; exact List.mem_cons_self _ _
    · rw [if_neg hp]; exact List.mem_cons_of_mem kv ih

/-- Entries of the result of a dict assignment are the assigned pair or
    original entries. -/
theorem mem_setKey_elim (k : Ident) (v : Value) :
    ∀ (l : List (Ident × Value)) (b : Ident × Value),
      b ∈ setKey l k v → b = (k, v) ∨ b ∈ l := by
  intro l
  induction l with
  | nil =>
    intro b hb
    exact Or.inl (List.mem_singleton.mp hb)
  | cons kv l ih =>
    intro b hb
    unfold setKey at hb
    by_cases hp : kv.1 = k
    · rw [if_pos hp] at hb
      rcases List.mem_cons.mp hb with rfl | hb2
      · exact Or.inl rfl
      · exact Or.inr (List.mem_cons_of_mem kv hb2)
    · rw [if_neg hp] at hb
      rcases List.mem_cons.mp hb with rfl | hb2
      · exact Or.inr (List.mem_cons_self _ _)
      · rcases ih b hb2 with h | h
        · exact Or.inl h
        · exact Or.inr (List.mem_cons_of_mem kv h)

/-- An entry of another key survives a dict assignment. -/
theorem mem_setKey_of_mem (k : Ident) (v : Value) :
    ∀ (l : List (Ident × Value)) (b : Ident × Value),
      b ∈ l → b.1 ≠ k → b ∈ setKey l k v := by
  intro l
  induction l with
  | nil => intro b hb; cases hb
  | cons kv l ih =>
    intro b hb hne
    unfold setKey
    by_cases hp : kv.1 = k
    · rw [if_pos hp]
      rcases List.mem_cons.mp hb with rfl | hb2
      · exact absurd hp hne
      · exact List.mem_cons_of_mem _ hb2
    · rw [if_neg hp]
      rcases List.mem_cons.mp hb with rfl | hb2
      · exact List.mem_cons_self _ _
      · exact List.mem_cons_of_mem kv (ih b hb2 hne)

/-- Dict assignment preserves pairwise-distinct keys. -/
theorem setKey_pairwise (k : Ident) (v : Value) :
    ∀ l : List (Ident × Value), l.Pairwise (fun a b => a.1 ≠ b.1) →
      (setKey l k v).Pairwise (fun a b => a.1 ≠ b.1) := by
  intro l
  induction l with
  | nil => intro _; exact List.pairwise_singleton _ _
  | cons kv l ih =>
    intro h
    rw [List.pairwise_cons] at h
    unfold setKey
    by_cases hp : kv.1 = k
    · rw [if_pos hp]
      rw [List.pairwise_cons]
      refine ⟨?_, h.2⟩
      intro b hb
      show k ≠ b.1
      rw [← hp]
      exact h.1 b hb
    · rw [if_neg hp]
      rw [List.pairwise_cons]
      refine ⟨?_, ih h.2⟩
      intro b hb
      rcases mem_setKey_elim k v l b hb with rfl | hb2
      · exact hp
      · exact h.1 b hb2

/-- C5: `update_record` on a table whose (deduplicated) supplied keys are
    declared columns performs exactly one UPDATE: rows with another id are
    untouched; on the matching row the id is kept, created_at is never
    mutated (caller-supplied id / created_at are stripped), updated_at is
    always stamped to the current instant, every supplied column takes its
    supplied value and every other column keeps its stored value. -/
theorem c5_update_stamps_and_frames (db : DB) (table : Ident) (rid : Int)
    (data : List (Ident × Value)) (now : Int) (st : StorageTable)
    (hst : lookupStorage db table = some st)
    (hcols : ∀ kv ∈ stripUpdate data,
      kv.1 = "updated_at" ∨ st.columns.any (fun c => c.1 = kv.1) = true)
    (hnodup : data.Pairwise (fun a b => a.1 ≠ b.1)) :
    update_record db table rid data now =
      .ok (setStorage db table
        { st with rows := st.rows.map (fun r => if r.id = rid then updRowFn data now r else r) }) ∧
    (∀ r : Row, (updRowFn data now r).id = r.id) ∧
    (∀ r : Row, (updRowFn data now r).created_at = r.created_at) ∧
    (∀ r : Row, (updRowFn data now r).updated_at = .int now) ∧
    (∀ (r : Row) (c : Ident), c ≠ "updated_at" → (∀ kv ∈ data, kv.1 ≠ c) →
      (updRowFn data now r).cols.lookup c = r.cols.lookup c) ∧
    (∀ (r : Row) (k : Ident) (v : Value), (k, v) ∈ data →
      k ≠ "id" → k ≠ "created_at" → k ≠ "updated_at" → k ∈ r.cols.map Prod.fst →
      (updRowFn data now r).cols.lookup k = some v) := by
  have hdnd : (updAssignments data now).Pairwise (fun a b => a.1 ≠ b.1) := by
    apply setKey_pairwise
    exact hnodup.sublist (List.filter_sublist _)
  have hstripmem : ∀ kv ∈ stripUpdate data, kv.1 ≠ "id" ∧ kv.1 ≠ "created_at" ∧ kv ∈ data := by
    intro kv hkv
    rw [stripUpdate, List.mem_filter] at hkv
    refine ⟨?_, ?_, hkv.1⟩ <;>
      · intro he
        rw [he] at hkv
        simp at hkv
  refine ⟨?_, ?_, ?_, ?_, ?_, ?_⟩
  · unfold update_record
    rw [hst]
    have hall : (updAssignments data now).all
        (fun kv => kv.1 = "updated_at" || st.columns.any (fun c => c.1 = kv.1)) = true := by
      rw [List.all_eq_true]
      intro kv hkv
      rcases mem_setKey_elim "updated_at" (.int now) (stripUpdate data) kv hkv with rfl | hm
      · simp
      · rcases hcols kv hm with h | h
        · simp [h]
        · simp [h]
    simp [hall]
  · intro r; exact foldApply_id _ r
  · intro r
    apply foldApply_created
    intro kv hkv
    rcases mem_setKey_elim "updated_at" (.int now) (stripUpdate data) kv hkv with rfl | hm
    · show ("updated_at" : Ident) ≠ "created_at"
      decide
    · exact (hstripmem kv hm).2.1
  · intro r
    exact foldApply_updated _ (.int now) hdnd
      (mem_setKey_self "updated_at" (.int now) (stripUpdate data)) r
  · intro r c hc hnone
    apply foldApply_cols_frame
    intro kv hkv
    rcases mem_setKey_elim "updated_at" (.int now) (stripUpdate data) kv hkv with rfl | hm
    · exact fun he => hc he.symm
    · exact hnone kv (hstripmem kv hm).2.2
  · intro r k v hmem hk1 hk2 hk3 hin
    apply foldApply_cols_set _ k v hdnd _ hk3 hk2 r hin
    apply mem_setKey_of_mem _ _ _ _ _ hk3
    rw [stripUpdate, List.mem_filter]
    exact ⟨hmem, by simp [hk1, hk2]⟩

/-- Witness for C5: updating record #1 of the two-row table with
    {a: z, created_at: 99} keeps created_at at 1, stamps updated_at to 7,
    replaces a, keeps b, and leaves record #2 untouched. -/
theorem c5_witness :
    ∃ db2,
      update_record twoRowDB "t" 1 [("a", Value.text "z".toList), ("created_at", Value.int 99)] 7 =
        .ok db2 ∧
      get_record db2 "t" 1 =
        some ⟨1, .int 1, .int 7, [("a", .text "z".toList), ("b", .text "y".toList)]⟩ ∧
      get_record db2 "t" 2 =
        some ⟨2, .int 2, .int 2, [("a", .text "u".toList), ("b", .text "v".toList)]⟩ := by
  have h := c5_update_stamps_and_frames twoRowDB "t" 1
    [("a", Value.text "z".toList), ("created_at", Value.int 99)] 7
    ⟨[("a", "TEXT"), ("b", "TEXT")],
      [⟨1, .int 1, .int 1, [("a", .text "x".toList), ("b", .text "y".toList)]⟩,
       ⟨2, .int 2, .int 2, [("a", .text "u".toList), ("b", .text "v".toList)]⟩], 3⟩
    (by decide) (by decide) (by decide)
  exact ⟨_, h.1, by decide, by decide⟩
